import Mathlib

/-!
Shallow embedding of the JSON-RPC connection engine of
`agent-client-protocol` (file `src/python/src/acp/core.py`): the frame
payloads, the `RequestError` taxonomy, the pending-call table, the
dispatcher `Connection._process_message`, the receive loop
`Connection._receive_loop`, `Connection.close`, `Connection.send_request`,
`Connection.send_notification`, and the two role-adapter handlers built in
`AgentSideConnection.__init__` and `ClientSideConnection.__init__`.

Python/JSON values are modelled by the inductive `Json` (JSON `null` and
Python `None` coincide after `json.loads`).  Python exceptions raised by a
handler are modelled by `PyExn`; exceptions that the dispatcher does NOT
catch (such as the `AttributeError` raised by `err.get` when `err` is not
a dict) are modelled by the `Except RuntimeErr` result of
`processMessage`.  User-supplied implementation objects and the pydantic
validators are oracles (`AgentImpl`, `ClientImpl`): the adapter handlers
record which implementation methods they invoke so that claims of the
form "the implementation is never invoked" are expressible.
-/

namespace ACP

/-- JSON values as decoded by `json.loads` (numbers restricted to the
integers actually used by the engine; object fields keep insertion
order, as Python dicts do). -/
inductive Json where
  | null : Json
  | bool : Bool → Json
  | num : Int → Json
  | str : String → Json
  | arr : List Json → Json
  | obj : List (String × Json) → Json

/-- First-match lookup in an object's field list (Python dict lookup:
keys are unique in a real dict, and `json.loads` keeps the last
duplicate, so first-match on the modelled list is the dict behaviour for
the well-formed objects the engine builds). -/
def lookupField : List (String × Json) → String → Option Json
  | [], _ => none
  | (k, v) :: fs, key => if k = key then some v else lookupField fs key

/-- The value of key `k` when the message is a dict carrying `k`
(`message[k]` guarded by `k in message`); `none` when the key is absent
or the message is not a dict. -/
def Json.getKey : Json → String → Option Json
  | .obj fs, k => lookupField fs k
  | _, _ => none

/-- Python `k in message` for a dict. -/
def Json.hasKey (j : Json) (k : String) : Bool :=
  (j.getKey k).isSome

/-- Python `message.get(k)` compared against `None`: a key that is absent
and a key whose value is JSON `null` both give Python `None`, so both
give `none` here. -/
def Json.getNonNull (j : Json) (k : String) : Option Json :=
  match j.getKey k with
  | some .null => none
  | some v => some v
  | none => none

/-- Python truthiness of a decoded JSON value (`None`, `False`, `0`,
`""`, `[]`, `{}` are falsy). -/
def Json.isTruthy : Json → Bool
  | .null => false
  | .bool b => b
  | .num n => n != 0
  | .str s => s != ""
  | .arr xs => !xs.isEmpty
  | .obj fs => !fs.isEmpty

/-- Whether Python `hash(x)` succeeds on a decoded JSON value: scalars
(`None`, booleans, numbers, strings) are hashable; lists and dicts are
unhashable, so `dict.pop` on such a key raises `TypeError` before the
default is ever consulted. -/
def pyHashable : Json → Bool
  | .arr _ => false
  | .obj _ => false
  | _ => true

/-- Python `int`-keyed dict lookup key of a hashable inbound `id`
value: Python equates `True` with `1` and `False` with `0`, so a JSON
boolean can pop an integer-keyed pending entry; `null` and strings are
hashable but match no integer key.  (Unhashable values never reach the
lookup: hashing them raises `TypeError`, see `pyHashable`.) -/
def pyDictIntKey : Json → Option Int
  | .num n => some n
  | .bool b => some (if b then 1 else 0)
  | _ => none

/-- The `RequestError` exception of `core.py`: `code`, `message` and
`data` as they appear in `to_error_obj` (a Python `None` data is the
JSON `null`). -/
structure RequestErr where
  code : Json
  message : Json
  data : Json

/-- The dict built by `RequestError.to_error_obj`. -/
def RequestErr.toErrorObj (e : RequestErr) : Json :=
  .obj [("code", e.code), ("message", e.message), ("data", e.data)]

/-- Static constructor `RequestError.parse_error` with its default
`data=None`. -/
def parseErrorE : RequestErr :=
  ⟨.num (-32700), .str "Parse error", .null⟩

/-- Static constructor `RequestError.method_not_found`: the data dict is
`{"method": method}`. -/
def methodNotFoundE (m : Json) : RequestErr :=
  ⟨.num (-32601), .str "Method not found", .obj [("method", m)]⟩

/-- Static constructor `RequestError.invalid_params`. -/
def invalidParamsE (d : Json) : RequestErr :=
  ⟨.num (-32602), .str "Invalid params", d⟩

/-- Static constructor `RequestError.internal_error`. -/
def internalErrorE (d : Json) : RequestErr :=
  ⟨.num (-32603), .str "Internal error", d⟩

/-- An exception raised by a handler invocation, in the taxonomy the
dispatcher's `try/except` ladder distinguishes: `RequestError`, pydantic
`ValidationError` (carrying `ve.errors()`), or any other `Exception`
(carrying the result of `json.loads(str(err))` when that parse succeeds,
and `str(err)` itself). -/
inductive PyExn where
  | reqErr : RequestErr → PyExn
  | valErr : Json → PyExn
  | other : Option Json → String → PyExn

/-- The outcome of awaiting a handler: a return value (Python `None` or
a JSON value, `BaseModel` results already dumped), or a raised
exception. -/
inductive HandlerResult where
  | ok : Option Json → HandlerResult
  | exn : PyExn → HandlerResult

/-- An exception the dispatcher does not catch; it propagates out of
`_process_message` and kills the receive-loop task: the `AttributeError`
from `err.get` on a non-dict, or the `TypeError` from hashing an
unhashable dict key in `self._pending.pop`. -/
inductive RuntimeErr where
  | attributeError : RuntimeErr
  | typeError : RuntimeErr
deriving DecidableEq, Repr

/-- The state of one pending call's future: unresolved, resolved with
`set_result`, or failed with `set_exception(RequestError(...))`. -/
inductive FutureState where
  | unresolved : FutureState
  | result : Json → FutureState
  | exnErr : RequestErr → FutureState

/-- The mutable state of a `Connection`: the `_next_request_id` counter,
the key set of the `_pending` dict, and the state of every future ever
created by `send_request` (keyed by its request id; the future object
outlives its `_pending` entry, which is popped when a response
arrives). -/
structure ConnState where
  nextRequestId : Int
  pendingKeys : List Int
  futures : List (Int × FutureState)

/-- The state of a freshly constructed `Connection`. -/
def initConn : ConnState :=
  ⟨0, [], []⟩

/-- Overwrite the future registered under `id` (the dispatcher calls
`set_result`/`set_exception` on exactly the popped entry's future). -/
def setFuture : List (Int × FutureState) → Int → FutureState → List (Int × FutureState)
  | [], _, _ => []
  | (k, f) :: rest, i, s =>
      if k = i then (k, s) :: rest else (k, f) :: setFuture rest i s

/-- Lookup a future's state by id. -/
def getFuture : List (Int × FutureState) → Int → Option FutureState
  | [], _ => none
  | (k, f) :: rest, i => if k = i then some f else getFuture rest i

/-- `Connection.send_request`: allocate the next id, register a fresh
unresolved future under it, and emit the request frame
`{"jsonrpc": "2.0", "id": req_id, "method": method, "params": params}`.
Returns the new state, the assigned id, and the frame written. -/
def sendRequest (st : ConnState) (method : Json) (params : Json) :
    ConnState × Int × Json :=
  let reqId := st.nextRequestId
  (⟨reqId + 1,
    st.pendingKeys ++ [reqId],
    st.futures ++ [(reqId, FutureState.unresolved)]⟩,
   reqId,
   .obj [("jsonrpc", .str "2.0"), ("id", .num reqId),
         ("method", method), ("params", params)])

/-- `Connection.send_notification`: the frame written (no state
change). -/
def sendNotification (method : Json) (params : Json) : Json :=
  .obj [("jsonrpc", .str "2.0"), ("method", method), ("params", params)]

/-- The dispatcher's `err = message.get("error") or {}` coercion: a
falsy error value (in particular `null`) becomes the empty dict. -/
def coerceErrObj (v : Json) : Json :=
  if v.isTruthy then v else .obj []

/-- Python `err.get(k, dflt)`: defined for a dict, and an
`AttributeError` for every other value. -/
def dictGetD (err : Json) (k : String) (dflt : Json) : Except RuntimeErr Json :=
  match err with
  | .obj fs => .ok ((lookupField fs k).getD dflt)
  | _ => .error .attributeError

/-- Reconstruction of the caller-visible `RequestError` from an inbound
response's `error` value, exactly as lines 179-184 of `core.py` perform
it: `err = message.get("error") or {}` then
`RequestError(err.get("code", -32603), err.get("message", "Error"),
err.get("data"))`. -/
def reconstructErr (v : Json) : Except RuntimeErr RequestErr := do
  let err := coerceErrObj v
  let c ← dictGetD err "code" (.num (-32603))
  let m ← dictGetD err "message" (.str "Error")
  let d ← dictGetD err "data" .null
  return ⟨c, m, d⟩

/-- `Connection._process_message`: classify one decoded message and act.
The handler is the single method handler given at construction.  Returns
the new connection state and the list of frames written by this call, or
the uncaught runtime error that propagates out (killing the receive
loop).  A decoded value that is not a dict raises `AttributeError` at
`message.get("method")`; a response whose id is an unhashable value (a
JSON array or object) raises `TypeError` inside
`self._pending.pop(message["id"], None)`, which hashes the key before
consulting the default. -/
def processMessage (handler : Json → Json → HandlerResult)
    (st : ConnState) (msg : Json) : Except RuntimeErr (ConnState × List Json) :=
  match msg with
  | .obj _ =>
    let params := (msg.getKey "params").getD .null
    match msg.getNonNull "method", msg.hasKey "id" with
    | some m, true =>
        let reqId := (msg.getKey "id").getD .null
        let payload :=
          match handler m params with
          | .ok v =>
              Json.obj [("jsonrpc", .str "2.0"), ("id", reqId),
                        ("result", v.getD .null)]
          | .exn (.reqErr e) =>
              Json.obj [("jsonrpc", .str "2.0"), ("id", reqId),
                        ("error", e.toErrorObj)]
          | .exn (.valErr ve) =>
              Json.obj [("jsonrpc", .str "2.0"), ("id", reqId),
                        ("error", (invalidParamsE ve).toErrorObj)]
          | .exn (.other parsed s) =>
              Json.obj [("jsonrpc", .str "2.0"), ("id", reqId),
                        ("error", (internalErrorE
                          (parsed.getD (.obj [("details", .str s)]))).toErrorObj)]
        .ok (st, [payload])
    | some m, false =>
        let _ := handler m params
        .ok (st, [])
    | none, true =>
        if pyHashable ((msg.getKey "id").getD .null) then
          match pyDictIntKey ((msg.getKey "id").getD .null) with
          | some n =>
              if n ∈ st.pendingKeys then
                let st1 : ConnState :=
                  ⟨st.nextRequestId, st.pendingKeys.erase n, st.futures⟩
                if msg.hasKey "result" then
                  .ok (⟨st1.nextRequestId, st1.pendingKeys,
                        setFuture st1.futures n
                          (.result ((msg.getKey "result").getD .null))⟩, [])
                else if msg.hasKey "error" then
                  match reconstructErr ((msg.getKey "error").getD .null) with
                  | .ok e =>
                      .ok (⟨st1.nextRequestId, st1.pendingKeys,
                            setFuture st1.futures n (.exnErr e)⟩, [])
                  | .error r => .error r
                else
                  .ok (⟨st1.nextRequestId, st1.pendingKeys,
                        setFuture st1.futures n (.result .null)⟩, [])
              else .ok (st, [])
          | none => .ok (st, [])
        else .error .typeError
    | none, false => .ok (st, [])
  | _ => .error .attributeError

/-- One inbound line, with the outcome of the two `json.loads` attempts
supplied as an oracle (parsing is external): `parsed j` when
`json.loads(line)` succeeds with `j`; `malformed fb` when it raises, with
`fb` the result of re-parsing `line.decode("utf-8", errors="ignore")`
(`none` when that second parse also raises). -/
inductive Line where
  | parsed : Json → Line
  | malformed : Option Json → Line

/-- The malformed-line branch of `Connection._receive_loop`: peek for an
id in the fallback parse (`maybe.get("id") if isinstance(maybe, dict)
else None`); when a non-`None` id is found, send a ParseError response
for it, otherwise send nothing.  Returns the frames written. -/
def handleMalformed (fb : Option Json) : List Json :=
  let msgId : Option Json :=
    match fb with
    | some (.obj fs) =>
        match lookupField fs "id" with
        | some .null => none
        | some v => some v
        | none => none
    | _ => none
  match msgId with
  | some i =>
      [.obj [("jsonrpc", .str "2.0"), ("id", i),
             ("error", parseErrorE.toErrorObj)]]
  | none => []

/-- `Connection._receive_loop` over a finite list of inbound lines (the
stream ends after them): processes lines strictly in order, handling a
malformed line with `handleMalformed` and a parsed one with an inline
`await` of `_process_message`.  Returns the final state, all frames
written, and `some e` when an uncaught exception `e` escaped
`_process_message` and killed the loop task (leaving later lines
unprocessed). -/
def receiveLoop (handler : Json → Json → HandlerResult) :
    ConnState → List Line → ConnState × List Json × Option RuntimeErr
  | st, [] => (st, [], none)
  | st, .malformed fb :: rest =>
      let tail := receiveLoop handler st rest
      (tail.1, handleMalformed fb ++ tail.2.1, tail.2.2)
  | st, .parsed j :: rest =>
      match processMessage handler st j with
      | .error e => (st, [], some e)
      | .ok (st1, sent) =>
          let tail := receiveLoop handler st1 rest
          (tail.1, sent ++ tail.2.1, tail.2.2)

/-- Control-flow events of the receive loop, for stating in which order
frames are decoded and handlers run: `frameDecoded i` marks the i-th
line's `json.loads` completing, `handlerStart i` / `handlerEnd i` mark
the `await self._handler(...)` inside `_process_message` for that line
being entered / returning. -/
inductive Ev where
  | frameDecoded : Nat → Ev
  | handlerStart : Nat → Ev
  | handlerEnd : Nat → Ev
deriving DecidableEq, Repr

/-- The event trace of `Connection._receive_loop` on a list of lines,
numbering lines from `i`: the loop body is `await
self._process_message(message)`, so for a request or notification (a
dict with a non-null `method`) the handler is entered and awaited to
completion before the next line is read; a malformed line and a response
produce no handler events; an uncaught exception ends the trace. -/
def loopTrace (handler : Json → Json → HandlerResult) :
    Nat → ConnState → List Line → List Ev
  | _, _, [] => []
  | i, st, .malformed _ :: rest => .frameDecoded i :: loopTrace handler (i + 1) st rest
  | i, st, .parsed j :: rest =>
      match j.getNonNull "method" with
      | some _ =>
          match processMessage handler st j with
          | .ok (st1, _) =>
              .frameDecoded i :: .handlerStart i :: .handlerEnd i ::
                loopTrace handler (i + 1) st1 rest
          | .error _ => [.frameDecoded i, .handlerStart i, .handlerEnd i]
      | none =>
          match processMessage handler st j with
          | .ok (st1, _) => .frameDecoded i :: loopTrace handler (i + 1) st1 rest
          | .error _ => [.frameDecoded i]

/-- The lifecycle state of a `Connection`: whether the `_recv_task` is
done (cancelled or finished) together with the request/pending state.
`close()` touches nothing else. -/
structure ConnLife where
  recvTaskDone : Bool
  st : ConnState

/-- `Connection.close`: when the receive task is not yet done, cancel it
and await it (which marks it done); nothing else — the pending dict, the
futures and the writer are untouched ("Do not close writer here"). -/
def closeConn (c : ConnLife) : ConnLife :=
  if c.recvTaskDone then c else ⟨true, c.st⟩

/-- `Connection.send_request` lifted to the lifecycle state: the source
has no closed-connection check, so the send proceeds identically whether
or not the receive task has been cancelled. -/
def sendRequestLife (c : ConnLife) (method : Json) (params : Json) :
    ConnLife × Int × Json :=
  let r := sendRequest c.st method params
  (⟨c.recvTaskDone, r.1⟩, r.2.1, r.2.2)

/-- A sequence of `send_request` calls; returns the final state and the
list of (assigned id, frame written) in call order. -/
def sendMany (st : ConnState) : List (Json × Json) → ConnState × List (Int × Json)
  | [] => (st, [])
  | (m, p) :: rest =>
      let r := sendRequest st m p
      let tail := sendMany r.1 rest
      (tail.1, (r.2.1, r.2.2) :: tail.2)

/-- Oracle for a user-supplied `Agent` implementation together with the
pydantic validators the adapter handler calls.  `validate m p` models
`<RequestType for m>.model_validate(p)`: `none` is success, `some ve` is
a raised `ValidationError` with `ve.errors() = ve`.  `run m p` models
awaiting the implementation method routed for wire method `m` (its
`BaseModel` return already dumped to `Option Json`; a raised exception is
an `exn`).  `hasLoadSession` models `hasattr(agent, "loadSession")`. -/
structure AgentImpl where
  validate : String → Json → Option Json
  run : String → Json → HandlerResult
  hasLoadSession : Bool

/-- Oracle for a user-supplied `Client` implementation, with validators
for the four schema-validated client methods; the terminal methods are
invoked through `getattr` with raw params, which `run` also models. -/
structure ClientImpl where
  validate : String → Json → Option Json
  run : String → Json → HandlerResult

/-- One validated route of an adapter handler: run the validator for the
method's request type, raising `ValidationError` on failure (the
implementation is not invoked), else invoke the implementation method.
Returns the handler outcome and the list of implementation methods
invoked. -/
def routeValidated (validate : String → Json → Option Json)
    (run : String → Json → HandlerResult) (name : String) (params : Json) :
    HandlerResult × List String :=
  match validate name params with
  | some ve => (.exn (.valErr ve), [])
  | none => (run name params, [name])

/-- The inner `handler` closure of `AgentSideConnection.__init__`,
matching the incoming wire method against `AGENT_METHODS` in source
order; the wire strings are the generated `meta.AGENT_METHODS` values.
The `session/load` route checks `hasattr(agent, "loadSession")` before
validating and raises `RequestError.method_not_found` when absent; an
unmatched method falls through to the final
`raise RequestError.method_not_found(method)`.  Alongside the outcome,
the list of implementation methods invoked is returned. -/
def agentHandler (a : AgentImpl) (method : Json) (params : Json) :
    HandlerResult × List String :=
  match method with
  | .str "initialize" => routeValidated a.validate a.run "initialize" params
  | .str "session/new" => routeValidated a.validate a.run "session/new" params
  | .str "session/load" =>
      if a.hasLoadSession then
        routeValidated a.validate a.run "session/load" params
      else
        (.exn (.reqErr (methodNotFoundE method)), [])
  | .str "authenticate" => routeValidated a.validate a.run "authenticate" params
  | .str "session/prompt" => routeValidated a.validate a.run "session/prompt" params
  | .str "session/cancel" => routeValidated a.validate a.run "session/cancel" params
  | _ => (.exn (.reqErr (methodNotFoundE method)), [])

/-- The handler outcome alone, as passed to `Connection.__init__`. -/
def agentHandlerRes (a : AgentImpl) (method : Json) (params : Json) : HandlerResult :=
  (agentHandler a method params).1

/-- The inner `handler` closure of `ClientSideConnection.__init__`,
matching against `CLIENT_METHODS` in source order: the four
schema-validated routes, then the five terminal routes invoked through
`getattr` with the raw params (no validation), then the final
`raise RequestError.method_not_found(method)`. -/
def clientHandler (c : ClientImpl) (method : Json) (params : Json) :
    HandlerResult × List String :=
  match method with
  | .str "fs/write_text_file" => routeValidated c.validate c.run "fs/write_text_file" params
  | .str "fs/read_text_file" => routeValidated c.validate c.run "fs/read_text_file" params
  | .str "session/request_permission" =>
      routeValidated c.validate c.run "session/request_permission" params
  | .str "session/update" => routeValidated c.validate c.run "session/update" params
  | .str "terminal/create" => (c.run "terminal/create" params, ["terminal/create"])
  | .str "terminal/output" => (c.run "terminal/output" params, ["terminal/output"])
  | .str "terminal/release" => (c.run "terminal/release" params, ["terminal/release"])
  | .str "terminal/wait_for_exit" =>
      (c.run "terminal/wait_for_exit" params, ["terminal/wait_for_exit"])
  | .str "terminal/kill" => (c.run "terminal/kill" params, ["terminal/kill"])
  | _ => (.exn (.reqErr (methodNotFoundE method)), [])

/-- The handler outcome alone, as passed to `Connection.__init__`. -/
def clientHandlerRes (c : ClientImpl) (method : Json) (params : Json) : HandlerResult :=
  (clientHandler c method params).1

/-- The wire method strings of the agent-facing table
(`meta.AGENT_METHODS` values). -/
def agentMethodStrings : List String :=
  ["authenticate", "initialize", "session/cancel", "session/load",
   "session/new", "session/prompt"]

/-- The wire method strings of the client-facing table
(`meta.CLIENT_METHODS` values). -/
def clientMethodStrings : List String :=
  ["fs/read_text_file", "fs/write_text_file", "session/request_permission",
   "session/update", "terminal/create", "terminal/kill", "terminal/output",
   "terminal/release", "terminal/wait_for_exit"]

/-- A trivial method handler used for concrete scenarios: every
invocation returns Python `None`. -/
def hConst : Json → Json → HandlerResult :=
  fun _ _ => .ok none

/-- A concrete inbound request frame with integer id `i` and method
`m`. -/
def reqMsg (i : Int) (m : String) : Json :=
  .obj [("jsonrpc", .str "2.0"), ("id", .num i), ("method", .str m),
        ("params", .null)]

/-- The connection state after one `send_request`: id 0 assigned, its
future pending. -/
def stPending0 : ConnState :=
  (sendRequest initConn (.str "ping") .null).1

/-- A lifecycle state with the receive task running and one outstanding
request (id 0). -/
def lifePending0 : ConnLife :=
  ⟨false, stPending0⟩

/-- A response frame for id 0 whose `error` value is a bare string
rather than an object. -/
def respBoom : Json :=
  .obj [("jsonrpc", .str "2.0"), ("id", .num 0), ("error", .str "boom")]

/-- Updating the future registered under `n` changes no other id's
future. -/
theorem getFuture_setFuture_ne (l : List (Int × FutureState)) (n i : Int)
    (s : FutureState) (h : i ≠ n) :
    getFuture (setFuture l n s) i = getFuture l i := by
  induction l with
  | nil => rfl
  | cons kv rest ih =>
      obtain ⟨k, f⟩ := kv
      by_cases hk : k = n
      · subst hk
        simp [setFuture, getFuture, Ne.symm h]
      · simp [setFuture, getFuture, hk]
        by_cases hk2 : k = i <;> simp [hk2, ih]

/-- Updating the future registered under `n` overwrites it when an entry
for `n` exists. -/
theorem getFuture_setFuture_self (l : List (Int × FutureState)) (n : Int)
    (s : FutureState) (f : FutureState) (h : getFuture l n = some f) :
    getFuture (setFuture l n s) n = some s := by
  induction l with
  | nil => simp [getFuture] at h
  | cons kv rest ih =>
      obtain ⟨k, g⟩ := kv
      by_cases hk : k = n
      · subst hk
        simp [setFuture, getFuture]
      · simp [setFuture, getFuture, hk] at h ⊢
        exact ih h

/-- A value that matches an integer pending key is hashable. -/
theorem pyDictIntKey_hashable (v : Json) (n : Int)
    (h : pyDictIntKey v = some n) : pyHashable v = true := by
  cases v <;> simp_all [pyDictIntKey, pyHashable]

/-- Reconstruction from a dict-valued `error` is total, with the
source's defaults for each missing field. -/
theorem reconstructErr_obj (efs : List (String × Json)) :
    reconstructErr (.obj efs) =
      .ok ⟨(lookupField efs "code").getD (.num (-32603)),
           (lookupField efs "message").getD (.str "Error"),
           (lookupField efs "data").getD .null⟩ := by
  by_cases hemp : efs.isEmpty
  · have : efs = [] := List.isEmpty_iff.mp hemp
    subst this
    rfl
  · simp [reconstructErr, coerceErrObj, dictGetD, Json.isTruthy, hemp]
    rfl

/-- Reconstruction from a falsy `error` value coerces to the empty dict
and yields all three defaults. -/
theorem reconstructErr_falsy (v : Json) (hv : v.isTruthy = false) :
    reconstructErr v = .ok ⟨.num (-32603), .str "Error", .null⟩ := by
  simp [reconstructErr, coerceErrObj, hv, dictGetD, lookupField]
  rfl

/-- Reconstruction from a truthy non-dict `error` value raises
`AttributeError` at `err.get("code", ...)`. -/
theorem reconstructErr_truthy_nonobj (v : Json) (hv : v.isTruthy = true)
    (hno : ∀ efs, v ≠ Json.obj efs) :
    reconstructErr v = .error .attributeError := by
  cases v with
  | obj efs => exact absurd rfl (hno efs)
  | null => simp [Json.isTruthy] at hv
  | bool b =>
      cases b
      · simp [Json.isTruthy] at hv
      · rfl
  | num n =>
      have hn : ¬ n = 0 := by simpa [Json.isTruthy] using hv
      simp [reconstructErr, coerceErrObj, Json.isTruthy, hn]
      rfl
  | str s =>
      have hs : ¬ s = "" := by simpa [Json.isTruthy] using hv
      simp [reconstructErr, coerceErrObj, Json.isTruthy, hs]
      rfl
  | arr xs =>
      have ha : xs.isEmpty = false := by simpa [Json.isTruthy] using hv
      simp [reconstructErr, coerceErrObj, Json.isTruthy, ha]
      rfl

/-- A concrete Response frame whose id is a JSON array — valid JSON,
reachable from the wire, but unhashable as a Python dict key. -/
def respArrId : Json :=
  .obj [("jsonrpc", .str "2.0"), ("id", .arr [.num 1]), ("result", .num 7)]

/-- C4 (corrected), counterexample to the claim as stated: `respArrId`
is a Response frame (no method, an id key) whose id matches no pending
entry — the pending table is even empty — yet processing it is not a
no-op: `self._pending.pop(message["id"], None)` hashes the key before
consulting the default, so the array id raises an uncaught `TypeError`
that escapes the dispatcher and kills the receive loop. -/
theorem unhashable_response_id_raises_cx :
    respArrId.getNonNull "method" = none ∧
    respArrId.hasKey "id" = true ∧
    pyDictIntKey ((respArrId.getKey "id").getD .null) = none ∧
    initConn.pendingKeys = [] ∧
    processMessage hConst initConn respArrId = .error .typeError :=
  ⟨rfl, rfl, rfl, rfl, rfl⟩

/-- C4 (amended): processing an inbound Response frame (a message with
an `id` and no method) whose id matches no entry of the pending table —
a never-registered id, or the id of a call already resolved by an
earlier Response, since resolution pops the entry — leaves the
connection state unchanged, sends nothing, and raises nothing, PROVIDED
the id value is hashable; for an unhashable id (a JSON array or object)
the `dict.pop` instead raises `TypeError` out of the dispatcher,
killing the receive loop. -/
theorem unmatched_response_noop (handler : Json → Json → HandlerResult)
    (st : ConnState) (msg : Json)
    (hm : msg.getNonNull "method" = none)
    (hid : msg.hasKey "id" = true)
    (hmiss : ∀ n, pyDictIntKey ((msg.getKey "id").getD .null) = some n →
      n ∉ st.pendingKeys) :
    (pyHashable ((msg.getKey "id").getD .null) = true →
       processMessage handler st msg = .ok (st, [])) ∧
    (pyHashable ((msg.getKey "id").getD .null) = false →
       processMessage handler st msg = .error .typeError) := by
  cases msg with
  | obj fs =>
      constructor
      · intro hhash
        unfold processMessage
        simp only [hm, hid, hhash]
        match hk : pyDictIntKey (((Json.obj fs).getKey "id").getD .null) with
        | some n =>
          have := hmiss n hk
          simp [this]
        | none => simp
      · intro hhash
        unfold processMessage
        simp only [hm, hid, hhash]
        rfl
  | null => simp [Json.hasKey, Json.getKey] at hid
  | bool b => simp [Json.hasKey, Json.getKey] at hid
  | num n => simp [Json.hasKey, Json.getKey] at hid
  | str s => simp [Json.hasKey, Json.getKey] at hid
  | arr xs => simp [Json.hasKey, Json.getKey] at hid

/-- A response frame that resolves the one pending call, delivered twice
in the duplicate-response witness below. -/
def dupResp : Json :=
  .obj [("jsonrpc", .str "2.0"), ("id", .num 0), ("result", .num 7)]

/-- The connection state after `dupResp` has been delivered once to
`stPending0`: id 0 is resolved and popped. -/
def stAfterFirst : ConnState :=
  match processMessage hConst stPending0 dupResp with
  | .ok r => r.1
  | .error _ => initConn

/-- Witness for C4: delivering `dupResp` a second time — its id 0 was
already resolved and popped by the first delivery — is a silent no-op. -/
theorem unmatched_response_noop_witness :
    processMessage hConst stAfterFirst dupResp = .ok (stAfterFirst, []) :=
  (unmatched_response_noop hConst stAfterFirst dupResp rfl rfl (by
    intro n h
    have e : pyDictIntKey ((Json.getKey dupResp "id").getD .null) = some 0 := rfl
    rw [e] at h
    cases h
    decide)).1 rfl

/-- C2 (corrected), counterexample to the claim as stated: closing a
connection with an outstanding request (id 0, future unresolved) stops
the receive task but leaves the pending call unresolved and still
registered — it is not force-failed with a cancellation error — and a
`send_request` issued after `close()` does not fail with a
connection-closed error: it is assigned id 1, registers it as pending,
and produces a request frame exactly as before close. -/
theorem close_does_not_cancel_pending_cx :
    (closeConn lifePending0).recvTaskDone = true ∧
    getFuture (closeConn lifePending0).st.futures 0 = some .unresolved ∧
    (closeConn lifePending0).st.pendingKeys = [0] ∧
    (sendRequestLife (closeConn lifePending0) (.str "ping") .null).2.1 = 1 ∧
    (sendRequestLife (closeConn lifePending0) (.str "ping") .null).1.st.pendingKeys
      = [0, 1] ∧
    (sendRequestLife (closeConn lifePending0) (.str "ping") .null).2.2 =
      .obj [("jsonrpc", .str "2.0"), ("id", .num 1), ("method", .str "ping"),
            ("params", .null)] :=
  ⟨rfl, rfl, rfl, rfl, rfl, rfl⟩

/-- C2 (amended): `close()` is idempotent and stops the receive loop,
and that is all it does — the connection state (pending ids and
futures) is untouched, and a `send_request` issued after `close()`
behaves exactly as one issued before it (same id assignment, same
registration, same frame) instead of failing with a connection-closed
error. -/
theorem close_idempotent_stops_loop_only (c : ConnLife) (m p : Json) :
    closeConn (closeConn c) = closeConn c ∧
    (closeConn c).recvTaskDone = true ∧
    (closeConn c).st = c.st ∧
    (sendRequestLife (closeConn c) m p).1.st = (sendRequestLife c m p).1.st ∧
    (sendRequestLife (closeConn c) m p).2 = (sendRequestLife c m p).2 := by
  unfold closeConn sendRequestLife
  by_cases h : c.recvTaskDone <;> simp [h]

/-- C6: a line that `json.loads` cannot parse never terminates the
receive loop and never raises out of it — the loop's final state, its
remaining output and its terminating condition are exactly those of the
remaining lines — and the line itself produces exactly one ParseError
(-32700) response when the fallback parse yields a dict with a
non-null `id`, and nothing at all otherwise. -/
theorem malformed_line_parse_error_or_drop
    (handler : Json → Json → HandlerResult) (st : ConnState)
    (fb : Option Json) (rest : List Line) :
    receiveLoop handler st (.malformed fb :: rest) =
      ((receiveLoop handler st rest).1,
       (match fb with
        | some (.obj gs) =>
            (match lookupField gs "id" with
             | some .null => []
             | some i =>
                 [Json.obj [("jsonrpc", .str "2.0"), ("id", i),
                   ("error", .obj [("code", .num (-32700)),
                                   ("message", .str "Parse error"),
                                   ("data", .null)])]]
             | none => [])
        | _ => []) ++ (receiveLoop handler st rest).2.1,
       (receiveLoop handler st rest).2.2) := by
  cases fb with
  | none => rfl
  | some j =>
      cases j with
      | obj gs =>
          cases h : lookupField gs "id" with
          | none => simp [receiveLoop, handleMalformed, h]
          | some v =>
              cases v <;>
                simp [receiveLoop, handleMalformed, h, parseErrorE,
                  RequestErr.toErrorObj]
      | null => rfl
      | bool b => rfl
      | num n => rfl
      | str s => rfl
      | arr xs => rfl

/-- Reduction of the dispatcher on a request frame: exactly one response
frame is written, echoing the request id, with its body determined by the
handler's outcome. -/
theorem processMessage_request (handler : Json → Json → HandlerResult)
    (st : ConnState) (msg : Json) (m : Json)
    (hm : msg.getNonNull "method" = some m)
    (hid : msg.hasKey "id" = true) :
    processMessage handler st msg =
      .ok (st,
        [match handler m ((msg.getKey "params").getD .null) with
         | .ok v =>
             Json.obj [("jsonrpc", .str "2.0"),
                       ("id", (msg.getKey "id").getD .null),
                       ("result", v.getD .null)]
         | .exn (.reqErr e) =>
             Json.obj [("jsonrpc", .str "2.0"),
                       ("id", (msg.getKey "id").getD .null),
                       ("error", e.toErrorObj)]
         | .exn (.valErr ve) =>
             Json.obj [("jsonrpc", .str "2.0"),
                       ("id", (msg.getKey "id").getD .null),
                       ("error", (invalidParamsE ve).toErrorObj)]
         | .exn (.other parsed s) =>
             Json.obj [("jsonrpc", .str "2.0"),
                       ("id", (msg.getKey "id").getD .null),
                       ("error", (internalErrorE
                         (parsed.getD (.obj [("details", .str s)]))).toErrorObj)]]) := by
  cases msg with
  | obj fs =>
      unfold processMessage
      simp only [hm, hid]
  | null => simp [Json.hasKey, Json.getKey] at hid
  | bool b => simp [Json.hasKey, Json.getKey] at hid
  | num n => simp [Json.hasKey, Json.getKey] at hid
  | str s => simp [Json.hasKey, Json.getKey] at hid
  | arr xs => simp [Json.hasKey, Json.getKey] at hid

/-- Reduction of the dispatcher on a response frame whose id matches a
pending entry: the entry is popped and the result/error/neither branch
taken. -/
theorem processMessage_response_hit (handler : Json → Json → HandlerResult)
    (st : ConnState) (msg : Json) (idv : Json) (n : Int)
    (hm : msg.getNonNull "method" = none)
    (hidk : msg.getKey "id" = some idv)
    (hpk : pyDictIntKey idv = some n)
    (hmem : n ∈ st.pendingKeys) :
    processMessage handler st msg =
      (if msg.hasKey "result" then
        .ok (⟨st.nextRequestId, st.pendingKeys.erase n,
              setFuture st.futures n
                (.result ((msg.getKey "result").getD .null))⟩, [])
      else if msg.hasKey "error" then
        match reconstructErr ((msg.getKey "error").getD .null) with
        | .ok e =>
            .ok (⟨st.nextRequestId, st.pendingKeys.erase n,
                  setFuture st.futures n (.exnErr e)⟩, [])
        | .error r => .error r
      else
        .ok (⟨st.nextRequestId, st.pendingKeys.erase n,
              setFuture st.futures n (.result .null)⟩, [])) := by
  have hh : pyHashable idv = true := pyDictIntKey_hashable idv n hpk
  cases msg with
  | obj fs =>
      unfold processMessage
      simp only [hm, Json.hasKey, hidk, Option.isSome, Option.getD, hh, hpk,
        hmem, if_true, ite_true]
  | null => simp [Json.getKey] at hidk
  | bool b => simp [Json.getKey] at hidk
  | num k => simp [Json.getKey] at hidk
  | str s => simp [Json.getKey] at hidk
  | arr xs => simp [Json.getKey] at hidk

/-- C8: for an inbound Response frame whose id matches a pending entry:
a frame carrying a `result` key resolves the caller's future with that
value; a frame with no `result` key and a dict-valued `error` key fails
the future with the RequestError reconstructed from that dict's
{code, message, data}; and a frame with neither key still resolves the
future successfully with the empty value (Python `None`). -/
theorem response_resolution_cases (handler : Json → Json → HandlerResult)
    (st : ConnState) (msg : Json) (idv : Json) (n : Int) (f : FutureState)
    (hm : msg.getNonNull "method" = none)
    (hidk : msg.getKey "id" = some idv)
    (hpk : pyDictIntKey idv = some n)
    (hmem : n ∈ st.pendingKeys)
    (hf : getFuture st.futures n = some f) :
    (∀ v, msg.getKey "result" = some v →
       ∃ st2, processMessage handler st msg = .ok (st2, []) ∧
         getFuture st2.futures n = some (.result v)) ∧
    (∀ efs e, msg.hasKey "result" = false →
       msg.getKey "error" = some (.obj efs) →
       reconstructErr (.obj efs) = .ok e →
       ∃ st2, processMessage handler st msg = .ok (st2, []) ∧
         getFuture st2.futures n = some (.exnErr e)) ∧
    (msg.hasKey "result" = false → msg.hasKey "error" = false →
       ∃ st2, processMessage handler st msg = .ok (st2, []) ∧
         getFuture st2.futures n = some (.result .null)) := by
  rw [processMessage_response_hit handler st msg idv n hm hidk hpk hmem]
  refine ⟨?_, ?_, ?_⟩
  · intro v hr
    have hkr : msg.hasKey "result" = true := by
      simp [Json.hasKey, hr]
    rw [hkr, hr]
    exact ⟨_, rfl, getFuture_setFuture_self st.futures n _ f hf⟩
  · intro efs e hnr he hrec
    have hke : msg.hasKey "error" = true := by
      simp [Json.hasKey, he]
    rw [hnr, hke, he]
    simp only [Option.getD, hrec]
    exact ⟨_, rfl, getFuture_setFuture_self st.futures n _ f hf⟩
  · intro hnr hne
    rw [hnr, hne]
    exact ⟨_, rfl, getFuture_setFuture_self st.futures n _ f hf⟩

/-- Witness for C8, result case: with request id 0 pending, delivering
`dupResp` (a response to id 0 carrying result 7) resolves the caller's
future with 7. -/
theorem response_resolution_cases_witness :
    ∃ st2, processMessage hConst stPending0 dupResp = .ok (st2, []) ∧
      getFuture st2.futures 0 = some (.result (.num 7)) :=
  (response_resolution_cases hConst stPending0 dupResp (.num 0) 0 .unresolved
    rfl rfl rfl (by decide) rfl).1 (.num 7) rfl

/-- C10 (corrected), counterexample to the claim as stated: a response
frame for pending id 0 whose `error` value is the string "boom" — a
truthy non-dict — makes the dispatcher raise `AttributeError` at
`err.get("code", ...)` instead of failing the pending call with a
RequestError. -/
theorem error_reconstruction_raises_cx :
    (0 : Int) ∈ stPending0.pendingKeys ∧
    processMessage hConst stPending0 respBoom = .error .attributeError :=
  ⟨by decide, rfl⟩

/-- C10 (amended): for an inbound Response frame with a pending id,
no `result` key and an `error` key, reconstruction of the
caller-visible RequestError applies defaults — a missing `code` field
defaults to -32603, a missing `message` field defaults to "Error", a
missing `data` field defaults to none, and a null (or any falsy) error
value is treated as an empty object — whenever the error value is a
dict or falsy; but for a truthy non-dict error value the dispatcher
raises `AttributeError` instead of failing the pending call. -/
theorem error_reconstruction_defaults (handler : Json → Json → HandlerResult)
    (st : ConnState) (msg : Json) (idv : Json) (n : Int) (f : FutureState)
    (ev : Json)
    (hm : msg.getNonNull "method" = none)
    (hidk : msg.getKey "id" = some idv)
    (hpk : pyDictIntKey idv = some n)
    (hmem : n ∈ st.pendingKeys)
    (hf : getFuture st.futures n = some f)
    (hnr : msg.hasKey "result" = false)
    (he : msg.getKey "error" = some ev) :
    (∀ efs, ev = .obj efs →
       ∃ st2, processMessage handler st msg = .ok (st2, []) ∧
         getFuture st2.futures n = some (.exnErr
           ⟨(lookupField efs "code").getD (.num (-32603)),
            (lookupField efs "message").getD (.str "Error"),
            (lookupField efs "data").getD .null⟩)) ∧
    (ev.isTruthy = false →
       ∃ st2, processMessage handler st msg = .ok (st2, []) ∧
         getFuture st2.futures n = some (.exnErr
           ⟨.num (-32603), .str "Error", .null⟩)) ∧
    (ev.isTruthy = true → (∀ efs, ev ≠ .obj efs) →
       processMessage handler st msg = .error .attributeError) := by
  rw [processMessage_response_hit handler st msg idv n hm hidk hpk hmem]
  have hke : msg.hasKey "error" = true := by
    simp [Json.hasKey, he]
  rw [hnr, hke, he]
  refine ⟨?_, ?_, ?_⟩
  · intro efs hev
    subst hev
    simp only [Option.getD, reconstructErr_obj]
    exact ⟨_, rfl, getFuture_setFuture_self st.futures n _ f hf⟩
  · intro hft
    simp only [Option.getD, reconstructErr_falsy ev hft]
    exact ⟨_, rfl, getFuture_setFuture_self st.futures n _ f hf⟩
  · intro htr hno
    simp only [Option.getD, reconstructErr_truthy_nonobj ev htr hno]
    rfl

/-- Witness for C10 (amended), defaults case: a response for pending id
0 whose error dict carries only `code: 5` fails the caller with
RequestError(5, "Error", None). -/
theorem error_reconstruction_defaults_witness :
    ∃ st2, processMessage hConst stPending0
        (.obj [("jsonrpc", .str "2.0"), ("id", .num 0),
               ("error", .obj [("code", .num 5)])]) = .ok (st2, []) ∧
      getFuture st2.futures 0 = some (.exnErr ⟨.num 5, .str "Error", .null⟩) :=
  (error_reconstruction_defaults hConst stPending0
    (.obj [("jsonrpc", .str "2.0"), ("id", .num 0),
           ("error", .obj [("code", .num 5)])])
    (.num 0) 0 .unresolved (.obj [("code", .num 5)])
    rfl rfl rfl (by decide) rfl rfl rfl).1 [("code", .num 5)] rfl

/-- An agent implementation oracle whose validators accept everything
and whose methods return Python `None`. -/
def aOk : AgentImpl :=
  ⟨fun _ _ => none, fun _ _ => .ok none, true⟩

/-- C1: for every inbound Request frame (id and method present),
dispatched through the agent-side adapter, exactly one Response frame is
sent, carrying the request's id, and no failure mode escapes: handler
success yields a result Response; a raised RequestError yields an error
Response with that error's code/message/data; a ValidationError yields
an error Response with code -32602 (and, when it is the adapter's
payload validation that failed, the user implementation method is never
invoked); any other exception yields an error Response with code -32603
and best-effort diagnostic data. -/
theorem dispatch_request_exactly_one_response
    (a : AgentImpl) (st : ConnState) (msg : Json) (m : Json)
    (hm : msg.getNonNull "method" = some m)
    (hid : msg.hasKey "id" = true) :
    (∃ p, processMessage (agentHandlerRes a) st msg = .ok (st, [p]) ∧
       p.getKey "id" = some ((msg.getKey "id").getD .null)) ∧
    (∀ v, agentHandlerRes a m ((msg.getKey "params").getD .null) = .ok v →
       processMessage (agentHandlerRes a) st msg =
         .ok (st, [.obj [("jsonrpc", .str "2.0"),
                         ("id", (msg.getKey "id").getD .null),
                         ("result", v.getD .null)]])) ∧
    (∀ e, agentHandlerRes a m ((msg.getKey "params").getD .null) =
        .exn (.reqErr e) →
       processMessage (agentHandlerRes a) st msg =
         .ok (st, [.obj [("jsonrpc", .str "2.0"),
                         ("id", (msg.getKey "id").getD .null),
                         ("error", .obj [("code", e.code),
                                         ("message", e.message),
                                         ("data", e.data)])]])) ∧
    (∀ ve, agentHandlerRes a m ((msg.getKey "params").getD .null) =
        .exn (.valErr ve) →
       processMessage (agentHandlerRes a) st msg =
         .ok (st, [.obj [("jsonrpc", .str "2.0"),
                         ("id", (msg.getKey "id").getD .null),
                         ("error", .obj [("code", .num (-32602)),
                                         ("message", .str "Invalid params"),
                                         ("data", ve)])]])) ∧
    (∀ parsed s, agentHandlerRes a m ((msg.getKey "params").getD .null) =
        .exn (.other parsed s) →
       processMessage (agentHandlerRes a) st msg =
         .ok (st, [.obj [("jsonrpc", .str "2.0"),
                         ("id", (msg.getKey "id").getD .null),
                         ("error", .obj [("code", .num (-32603)),
                                         ("message", .str "Internal error"),
                                         ("data", parsed.getD
                                           (.obj [("details", .str s)]))])]])) ∧
    (∀ name ve, m = .str name → name ∈ agentMethodStrings →
       (name = "session/load" → a.hasLoadSession = true) →
       a.validate name ((msg.getKey "params").getD .null) = some ve →
       agentHandler a m ((msg.getKey "params").getD .null) =
         (.exn (.valErr ve), [])) := by
  rw [processMessage_request (agentHandlerRes a) st msg m hm hid]
  refine ⟨?_, ?_, ?_, ?_, ?_, ?_⟩
  · cases hres : agentHandlerRes a m ((msg.getKey "params").getD .null) with
    | ok v =>
        exact ⟨_, rfl, by simp [Json.getKey, lookupField]⟩
    | exn e =>
        cases e with
        | reqErr e1 =>
            exact ⟨_, rfl, by simp [Json.getKey, lookupField]⟩
        | valErr ve =>
            exact ⟨_, rfl, by simp [Json.getKey, lookupField]⟩
        | other parsed s =>
            exact ⟨_, rfl, by simp [Json.getKey, lookupField]⟩
  · intro v hv
    rw [hv]
  · intro e he
    rw [he]
    rfl
  · intro ve hve
    rw [hve]
    rfl
  · intro parsed s ho
    rw [ho]
    rfl
  · intro name ve hmn hmem hload hval
    subst hmn
    simp only [agentMethodStrings, List.mem_cons, List.mem_singleton,
      List.not_mem_nil, or_false] at hmem
    rcases hmem with h | h | h | h | h | h <;> subst h
    · show routeValidated a.validate a.run "authenticate" _ = _
      simp [routeValidated, hval]
    · show routeValidated a.validate a.run "initialize" _ = _
      simp [routeValidated, hval]
    · show routeValidated a.validate a.run "session/cancel" _ = _
      simp [routeValidated, hval]
    · have hl := hload rfl
      show (if a.hasLoadSession then
              routeValidated a.validate a.run "session/load"
                ((msg.getKey "params").getD .null)
            else (.exn (.reqErr (methodNotFoundE (.str "session/load"))), [])) = _
      simp [hl, routeValidated, hval]
    · show routeValidated a.validate a.run "session/new" _ = _
      simp [routeValidated, hval]
    · show routeValidated a.validate a.run "session/prompt" _ = _
      simp [routeValidated, hval]

/-- Witness for C1, success case: the request `initialize` with id 0
against an accepting implementation produces exactly the result
Response for id 0. -/
theorem dispatch_request_exactly_one_response_witness :
    processMessage (agentHandlerRes aOk) initConn (reqMsg 0 "initialize") =
      .ok (initConn, [.obj [("jsonrpc", .str "2.0"), ("id", .num 0),
                            ("result", .null)]]) :=
  (dispatch_request_exactly_one_response aOk initConn (reqMsg 0 "initialize")
    (.str "initialize") rfl rfl).2.1 none rfl

/-- C9: the `session/load` route is present in the agent method table
but optional: when the implementation lacks `loadSession`, an inbound
request for it is answered with a well-formed MethodNotFound error
Response (code -32601) — the route matches and the outcome does not
depend on the validator, which is never consulted, and no implementation
method is invoked; when the implementation has `loadSession`, the params
are validated (a validation failure raises ValidationError without
invoking it) and on success `loadSession` itself is invoked. -/
theorem load_session_optional (st : ConnState) (msg : Json)
    (hm : msg.getNonNull "method" = some (.str "session/load"))
    (hid : msg.hasKey "id" = true) :
    (∀ validate run,
       processMessage (agentHandlerRes ⟨validate, run, false⟩) st msg =
         .ok (st, [.obj [("jsonrpc", .str "2.0"),
                         ("id", (msg.getKey "id").getD .null),
                         ("error", .obj [("code", .num (-32601)),
                                         ("message", .str "Method not found"),
                                         ("data", .obj [("method",
                                           .str "session/load")])])]]) ∧
       agentHandler ⟨validate, run, false⟩ (.str "session/load")
         ((msg.getKey "params").getD .null) =
           (.exn (.reqErr (methodNotFoundE (.str "session/load"))), [])) ∧
    (∀ a : AgentImpl, a.hasLoadSession = true →
       a.validate "session/load" ((msg.getKey "params").getD .null) = none →
       agentHandler a (.str "session/load") ((msg.getKey "params").getD .null) =
         (a.run "session/load" ((msg.getKey "params").getD .null),
          ["session/load"])) ∧
    (∀ (a : AgentImpl) (ve : Json), a.hasLoadSession = true →
       a.validate "session/load" ((msg.getKey "params").getD .null) = some ve →
       agentHandler a (.str "session/load") ((msg.getKey "params").getD .null) =
         (.exn (.valErr ve), [])) := by
  refine ⟨?_, ?_, ?_⟩
  · intro validate run
    constructor
    · rw [processMessage_request (agentHandlerRes ⟨validate, run, false⟩)
        st msg (.str "session/load") hm hid]
      rfl
    · rfl
  · intro a hl hv
    show (if a.hasLoadSession then
            routeValidated a.validate a.run "session/load"
              ((msg.getKey "params").getD .null)
          else (.exn (.reqErr (methodNotFoundE (.str "session/load"))), [])) = _
    simp [hl, routeValidated, hv]
  · intro a ve hl hv
    show (if a.hasLoadSession then
            routeValidated a.validate a.run "session/load"
              ((msg.getKey "params").getD .null)
          else (.exn (.reqErr (methodNotFoundE (.str "session/load"))), [])) = _
    simp [hl, routeValidated, hv]

/-- Witness for C9, unsupported case: a `session/load` request with id 2
against an implementation without `loadSession` is answered with the
MethodNotFound error Response. -/
theorem load_session_optional_witness :
    processMessage (agentHandlerRes ⟨fun _ _ => none, fun _ _ => .ok none, false⟩)
        initConn (reqMsg 2 "session/load") =
      .ok (initConn, [.obj [("jsonrpc", .str "2.0"), ("id", .num 2),
                            ("error", .obj [("code", .num (-32601)),
                                            ("message", .str "Method not found"),
                                            ("data", .obj [("method",
                                              .str "session/load")])])]]) :=
  ((load_session_optional initConn (reqMsg 2 "session/load") rfl rfl).1
    (fun _ _ => none) (fun _ _ => .ok none)).1

set_option maxHeartbeats 1600000 in
/-- C7: an inbound Request whose method string is in neither adapter's
method table is answered, on both adapter directions, by the catch-all
`raise RequestError.method_not_found(method)`: the handler fails with
MethodNotFound, no implementation method is invoked, and the peer
receives an error Response with code -32601. -/
theorem unknown_method_not_found
    (a : AgentImpl) (c : ClientImpl) (st : ConnState) (msg : Json) (s : String)
    (hm : msg.getNonNull "method" = some (.str s))
    (hid : msg.hasKey "id" = true) :
    (s ∉ agentMethodStrings →
       agentHandler a (.str s) ((msg.getKey "params").getD .null) =
         (.exn (.reqErr (methodNotFoundE (.str s))), []) ∧
       processMessage (agentHandlerRes a) st msg =
         .ok (st, [.obj [("jsonrpc", .str "2.0"),
                         ("id", (msg.getKey "id").getD .null),
                         ("error", .obj [("code", .num (-32601)),
                                         ("message", .str "Method not found"),
                                         ("data", .obj [("method",
                                           .str s)])])]])) ∧
    (s ∉ clientMethodStrings →
       clientHandler c (.str s) ((msg.getKey "params").getD .null) =
         (.exn (.reqErr (methodNotFoundE (.str s))), []) ∧
       processMessage (clientHandlerRes c) st msg =
         .ok (st, [.obj [("jsonrpc", .str "2.0"),
                         ("id", (msg.getKey "id").getD .null),
                         ("error", .obj [("code", .num (-32601)),
                                         ("message", .str "Method not found"),
                                         ("data", .obj [("method",
                                           .str s)])])]])) := by
  constructor
  · intro hsa
    simp only [agentMethodStrings, List.mem_cons, List.mem_singleton,
      List.not_mem_nil, or_false, not_or] at hsa
    have hag : agentHandler a (.str s) ((msg.getKey "params").getD .null) =
        (.exn (.reqErr (methodNotFoundE (.str s))), []) := by
      unfold agentHandler
      split <;> simp_all
    refine ⟨hag, ?_⟩
    rw [processMessage_request (agentHandlerRes a) st msg (.str s) hm hid]
    have hres : agentHandlerRes a (.str s) ((msg.getKey "params").getD .null) =
        .exn (.reqErr (methodNotFoundE (.str s))) := by
      unfold agentHandlerRes
      rw [hag]
    rw [hres]
    rfl
  · intro hsc
    simp only [clientMethodStrings, List.mem_cons, List.mem_singleton,
      List.not_mem_nil, or_false, not_or] at hsc
    have hcl : clientHandler c (.str s) ((msg.getKey "params").getD .null) =
        (.exn (.reqErr (methodNotFoundE (.str s))), []) := by
      unfold clientHandler
      split <;> simp_all
    refine ⟨hcl, ?_⟩
    rw [processMessage_request (clientHandlerRes c) st msg (.str s) hm hid]
    have hres : clientHandlerRes c (.str s) ((msg.getKey "params").getD .null) =
        .exn (.reqErr (methodNotFoundE (.str s))) := by
      unfold clientHandlerRes
      rw [hcl]
    rw [hres]
    rfl

/-- A client implementation oracle mirroring `aOk`. -/
def cOk : ClientImpl :=
  ⟨fun _ _ => none, fun _ _ => .ok none⟩

/-- Witness for C7: the unrecognized method string "no/such" with id 1
is answered with the MethodNotFound error Response on both adapter
directions. -/
theorem unknown_method_not_found_witness :
    processMessage (agentHandlerRes aOk) initConn (reqMsg 1 "no/such") =
      .ok (initConn, [.obj [("jsonrpc", .str "2.0"), ("id", .num 1),
                            ("error", .obj [("code", .num (-32601)),
                                            ("message", .str "Method not found"),
                                            ("data", .obj [("method",
                                              .str "no/such")])])]]) ∧
    processMessage (clientHandlerRes cOk) initConn (reqMsg 1 "no/such") =
      .ok (initConn, [.obj [("jsonrpc", .str "2.0"), ("id", .num 1),
                            ("error", .obj [("code", .num (-32601)),
                                            ("message", .str "Method not found"),
                                            ("data", .obj [("method",
                                              .str "no/such")])])]]) :=
  ⟨((unknown_method_not_found aOk cOk initConn (reqMsg 1 "no/such") "no/such"
      rfl rfl).1 (by decide)).2,
   ((unknown_method_not_found aOk cOk initConn (reqMsg 1 "no/such") "no/such"
      rfl rfl).2 (by decide)).2⟩

/-- Reduction of the dispatcher on a notification frame: the handler's
outcome is discarded and nothing is sent. -/
theorem processMessage_obj_notification (handler : Json → Json → HandlerResult)
    (st : ConnState) (fs : List (String × Json)) (m : Json)
    (hm : (Json.obj fs).getNonNull "method" = some m)
    (hid : (Json.obj fs).hasKey "id" = false) :
    processMessage handler st (.obj fs) = .ok (st, []) := by
  unfold processMessage
  simp only [hm, hid]

/-- Reduction of the dispatcher on a frame with neither method nor id:
the invalid message is ignored. -/
theorem processMessage_obj_no_id (handler : Json → Json → HandlerResult)
    (st : ConnState) (fs : List (String × Json))
    (hm : (Json.obj fs).getNonNull "method" = none)
    (hid : (Json.obj fs).hasKey "id" = false) :
    processMessage handler st (.obj fs) = .ok (st, []) := by
  unfold processMessage
  simp only [hm, hid]

/-- Reduction of the dispatcher on a method-less frame whose hashable id
matches no pending entry: a silent no-op (whether or not an id key is
even present). -/
theorem processMessage_obj_response_noop (handler : Json → Json → HandlerResult)
    (st : ConnState) (fs : List (String × Json))
    (hm : (Json.obj fs).getNonNull "method" = none)
    (hhash : pyHashable (((Json.obj fs).getKey "id").getD .null) = true)
    (hmiss : ∀ n, pyDictIntKey (((Json.obj fs).getKey "id").getD .null) = some n →
      n ∉ st.pendingKeys) :
    processMessage handler st (.obj fs) = .ok (st, []) := by
  unfold processMessage
  cases hid : (Json.obj fs).hasKey "id" with
  | true =>
      simp only [hm, hid, hhash]
      match hk : pyDictIntKey (((Json.obj fs).getKey "id").getD .null) with
      | some n =>
        have := hmiss n hk
        simp [this]
      | none => simp
  | false => simp only [hm, hid]

/-- Reduction of the dispatcher on a method-less frame carrying an
unhashable id: `dict.pop` raises `TypeError` out of the dispatcher. -/
theorem processMessage_obj_unhashable_id (handler : Json → Json → HandlerResult)
    (st : ConnState) (fs : List (String × Json))
    (hm : (Json.obj fs).getNonNull "method" = none)
    (hid : (Json.obj fs).hasKey "id" = true)
    (hhash : pyHashable (((Json.obj fs).getKey "id").getD .null) = false) :
    processMessage handler st (.obj fs) = .error .typeError := by
  unfold processMessage
  simp only [hm, hid, hhash]
  rfl

/-- The ids assigned by a run of `send_request` calls are consecutive
from the current counter value. -/
theorem sendMany_ids (calls : List (Json × Json)) :
    ∀ st : ConnState, (sendMany st calls).2.map Prod.fst =
      (List.range calls.length).map (fun k : Nat => st.nextRequestId + (k : Int)) := by
  induction calls with
  | nil => intro st; simp [sendMany]
  | cons cp rest ih =>
      intro st
      obtain ⟨m, p⟩ := cp
      have h1 : (sendMany st ((m, p) :: rest)).2.map Prod.fst =
          st.nextRequestId :: (sendMany (sendRequest st m p).1 rest).2.map Prod.fst :=
        rfl
      rw [h1, ih]
      have h2 : (sendRequest st m p).1.nextRequestId = st.nextRequestId + 1 := rfl
      rw [h2, List.length_cons, List.range_succ_eq_map, List.map_cons,
        List.map_map]
      refine congrArg₂ List.cons (by simp) ?_
      refine List.map_congr_left ?_
      intro k _
      simp only [Function.comp_apply]
      push_cast
      ring

/-- C3: request ids are assigned by the single per-connection counter
starting at 0 — the i-th `send_request` call on a fresh connection is
assigned id i (so the ids of any call sequence are distinct and no id is
ever reused), processing inbound messages never changes the counter, and
resolution is id-isolated: processing any message leaves the future of
every id other than the message's own id untouched, so no call is ever
resolved with another call's result. -/
theorem request_ids_monotone_and_isolated :
    (∀ calls : List (Json × Json),
       (sendMany initConn calls).2.map Prod.fst =
         (List.range calls.length).map (fun k : Nat => (k : Int)) ∧
       ((sendMany initConn calls).2.map Prod.fst).Nodup) ∧
    (∀ (handler : Json → Json → HandlerResult) (st : ConnState) (msg : Json)
       (st2 : ConnState) (out : List Json),
       processMessage handler st msg = .ok (st2, out) →
       st2.nextRequestId = st.nextRequestId) ∧
    (∀ (handler : Json → Json → HandlerResult) (st : ConnState) (msg : Json)
       (st2 : ConnState) (out : List Json) (i : Int),
       processMessage handler st msg = .ok (st2, out) →
       pyDictIntKey ((msg.getKey "id").getD .null) ≠ some i →
       getFuture st2.futures i = getFuture st.futures i) := by
  have hids2 : ∀ calls : List (Json × Json),
      (sendMany initConn calls).2.map Prod.fst =
        (List.range calls.length).map (fun k : Nat => (k : Int)) := by
    intro calls
    rw [sendMany_ids calls initConn]
    refine List.map_congr_left ?_
    intro k _
    show initConn.nextRequestId + (k : Int) = (k : Int)
    simp [initConn]
  refine ⟨?_, ?_, ?_⟩
  · intro calls
    refine ⟨hids2 calls, ?_⟩
    rw [hids2 calls]
    exact List.Nodup.map (fun x y hxy => by exact_mod_cast hxy) (List.nodup_range _)
  · intro handler st msg st2 out h
    cases msg with
    | obj fs =>
        cases hm2 : (Json.obj fs).getNonNull "method" with
        | some m =>
            cases hid2 : (Json.obj fs).hasKey "id" with
            | true =>
                rw [processMessage_request handler st (.obj fs) m hm2 hid2] at h
                obtain ⟨h1, h2⟩ := by simpa using h
                rw [← h1]
            | false =>
                rw [processMessage_obj_notification handler st fs m hm2 hid2] at h
                obtain ⟨h1, h2⟩ := by simpa using h
                rw [← h1]
        | none =>
            by_cases hidt : (Json.obj fs).hasKey "id" = true
            · cases hpk : pyDictIntKey (((Json.obj fs).getKey "id").getD .null) with
              | none =>
                  by_cases hhash : pyHashable
                      (((Json.obj fs).getKey "id").getD .null) = true
                  · rw [processMessage_obj_response_noop handler st fs hm2 hhash
                      (fun n2 hn2 => by rw [hpk] at hn2; cases hn2)] at h
                    obtain ⟨h1, h2⟩ := by simpa using h
                    rw [← h1]
                  · rw [processMessage_obj_unhashable_id handler st fs hm2 hidt
                      (Bool.eq_false_iff.mpr hhash)] at h
                    exact absurd h (by simp)
              | some n =>
                  by_cases hmem : n ∈ st.pendingKeys
                  · obtain ⟨idv, hidk⟩ : ∃ v, (Json.obj fs).getKey "id" = some v := by
                      cases hgk : (Json.obj fs).getKey "id" with
                      | some v => exact ⟨v, rfl⟩
                      | none => rw [Json.hasKey, hgk] at hidt; simp at hidt
                    have hpk2 : pyDictIntKey idv = some n := by
                      rw [hidk] at hpk
                      simpa using hpk
                    rw [processMessage_response_hit handler st (.obj fs) idv n
                      hm2 hidk hpk2 hmem] at h
                    by_cases hr : (Json.obj fs).hasKey "result" = true
                    · rw [if_pos hr] at h
                      obtain ⟨h1, h2⟩ := by simpa using h
                      rw [← h1]
                    · rw [if_neg hr] at h
                      by_cases he : (Json.obj fs).hasKey "error" = true
                      · rw [if_pos he] at h
                        cases hrec : reconstructErr
                            (((Json.obj fs).getKey "error").getD .null) with
                        | ok e =>
                            rw [hrec] at h
                            obtain ⟨h1, h2⟩ := by simpa using h
                            rw [← h1]
                        | error r =>
                            rw [hrec] at h
                            exact absurd h (by simp)
                      · rw [if_neg he] at h
                        obtain ⟨h1, h2⟩ := by simpa using h
                        rw [← h1]
                  · rw [processMessage_obj_response_noop handler st fs hm2
                      (pyDictIntKey_hashable _ n hpk)
                      (fun n2 hn2 => by
                        rw [hpk] at hn2
                        injection hn2 with hh
                        rw [← hh]
                        exact hmem)] at h
                    obtain ⟨h1, h2⟩ := by simpa using h
                    rw [← h1]
            · have hidf : (Json.obj fs).hasKey "id" = false :=
                Bool.eq_false_iff.mpr hidt
              rw [processMessage_obj_no_id handler st fs hm2 hidf] at h
              obtain ⟨h1, h2⟩ := by simpa using h
              rw [← h1]
    | null => exact absurd h (by simp [processMessage])
    | bool b => exact absurd h (by simp [processMessage])
    | num n => exact absurd h (by simp [processMessage])
    | str s => exact absurd h (by simp [processMessage])
    | arr xs => exact absurd h (by simp [processMessage])
  · intro handler st msg st2 out i h hne
    cases msg with
    | obj fs =>
        cases hm2 : (Json.obj fs).getNonNull "method" with
        | some m =>
            cases hid2 : (Json.obj fs).hasKey "id" with
            | true =>
                rw [processMessage_request handler st (.obj fs) m hm2 hid2] at h
                obtain ⟨h1, h2⟩ := by simpa using h
                rw [← h1]
            | false =>
                rw [processMessage_obj_notification handler st fs m hm2 hid2] at h
                obtain ⟨h1, h2⟩ := by simpa using h
                rw [← h1]
        | none =>
            by_cases hidt : (Json.obj fs).hasKey "id" = true
            · cases hpk : pyDictIntKey (((Json.obj fs).getKey "id").getD .null) with
              | none =>
                  by_cases hhash : pyHashable
                      (((Json.obj fs).getKey "id").getD .null) = true
                  · rw [processMessage_obj_response_noop handler st fs hm2 hhash
                      (fun n2 hn2 => by rw [hpk] at hn2; cases hn2)] at h
                    obtain ⟨h1, h2⟩ := by simpa using h
                    rw [← h1]
                  · rw [processMessage_obj_unhashable_id handler st fs hm2 hidt
                      (Bool.eq_false_iff.mpr hhash)] at h
                    exact absurd h (by simp)
              | some n =>
                  have hni : n ≠ i := fun hc => hne (by rw [hpk, hc])
                  by_cases hmem : n ∈ st.pendingKeys
                  · obtain ⟨idv, hidk⟩ : ∃ v, (Json.obj fs).getKey "id" = some v := by
                      cases hgk : (Json.obj fs).getKey "id" with
                      | some v => exact ⟨v, rfl⟩
                      | none => rw [Json.hasKey, hgk] at hidt; simp at hidt
                    have hpk2 : pyDictIntKey idv = some n := by
                      rw [hidk] at hpk
                      simpa using hpk
                    rw [processMessage_response_hit handler st (.obj fs) idv n
                      hm2 hidk hpk2 hmem] at h
                    by_cases hr : (Json.obj fs).hasKey "result" = true
                    · rw [if_pos hr] at h
                      obtain ⟨h1, h2⟩ := by simpa using h
                      rw [← h1]
                      exact getFuture_setFuture_ne st.futures n i _ hni.symm
                    · rw [if_neg hr] at h
                      by_cases he : (Json.obj fs).hasKey "error" = true
                      · rw [if_pos he] at h
                        cases hrec : reconstructErr
                            (((Json.obj fs).getKey "error").getD .null) with
                        | ok e =>
                            rw [hrec] at h
                            obtain ⟨h1, h2⟩ := by simpa using h
                            rw [← h1]
                            exact getFuture_setFuture_ne st.futures n i _ hni.symm
                        | error r =>
                            rw [hrec] at h
                            exact absurd h (by simp)
                      · rw [if_neg he] at h
                        obtain ⟨h1, h2⟩ := by simpa using h
                        rw [← h1]
                        exact getFuture_setFuture_ne st.futures n i _ hni.symm
                  · rw [processMessage_obj_response_noop handler st fs hm2
                      (pyDictIntKey_hashable _ n hpk)
                      (fun n2 hn2 => by
                        rw [hpk] at hn2
                        injection hn2 with hh
                        rw [← hh]
                        exact hmem)] at h
                    obtain ⟨h1, h2⟩ := by simpa using h
                    rw [← h1]
            · have hidf : (Json.obj fs).hasKey "id" = false :=
                Bool.eq_false_iff.mpr hidt
              rw [processMessage_obj_no_id handler st fs hm2 hidf] at h
              obtain ⟨h1, h2⟩ := by simpa using h
              rw [← h1]
    | null => exact absurd h (by simp [processMessage])
    | bool b => exact absurd h (by simp [processMessage])
    | num n => exact absurd h (by simp [processMessage])
    | str s => exact absurd h (by simp [processMessage])
    | arr xs => exact absurd h (by simp [processMessage])

/-- Witness for C3: three `send_request` calls on a fresh connection are
assigned the distinct ids 0, 1, 2 in order, and resolving id 0 with a
response leaves id 1's future untouched. -/
theorem request_ids_monotone_and_isolated_witness :
    (sendMany initConn [(.str "a", .null), (.str "b", .null), (.str "c", .null)]).2.map
        Prod.fst = [0, 1, 2] ∧
    getFuture stAfterFirst.futures 1 = getFuture stPending0.futures 1 := by
  constructor
  · have h := (request_ids_monotone_and_isolated.1
      [(.str "a", .null), (.str "b", .null), (.str "c", .null)]).1
    rw [h]
    decide
  · exact request_ids_monotone_and_isolated.2.2 hConst stPending0 dupResp
      stAfterFirst [] 1 rfl (by decide)

/-- Two parsed request frames arriving back to back. -/
def twoReqLines : List Line :=
  [.parsed (reqMsg 0 "ping"), .parsed (reqMsg 1 "ping")]

/-- C5 (corrected), counterexample to the claim as stated: on two
back-to-back inbound requests, the receive loop's event trace is fully
serialized — the first request's handler has already returned
(`handlerEnd 0`, position 2) before the second frame is even decoded
(`frameDecoded 1`, position 3) — so decoding of subsequent frames does
NOT proceed while a handler is still running, and two requests are never
in flight on the callee side at once. -/
theorem handlers_serialized_cx :
    loopTrace hConst 0 initConn twoReqLines =
      [.frameDecoded 0, .handlerStart 0, .handlerEnd 0,
       .frameDecoded 1, .handlerStart 1, .handlerEnd 1] ∧
    (loopTrace hConst 0 initConn twoReqLines).indexOf (Ev.handlerEnd 0) <
      (loopTrace hConst 0 initConn twoReqLines).indexOf (Ev.frameDecoded 1) := by
  have e : loopTrace hConst 0 initConn twoReqLines =
      [.frameDecoded 0, .handlerStart 0, .handlerEnd 0,
       .frameDecoded 1, .handlerStart 1, .handlerEnd 1] := rfl
  rw [e]
  exact ⟨rfl, by decide⟩

/-- C5 (amended): the receive loop awaits each handler inline — in every
event trace of the loop, a `handlerStart` is immediately followed by the
matching `handlerEnd`, so handler execution blocks decoding and dispatch
of all subsequent frames, handlers are strictly serialized, and a
handler that suspends (for example on a nested `send_request` over the
same connection) stalls the receive loop until it completes. -/
theorem receive_loop_serializes_handlers
    (handler : Json → Json → HandlerResult) (lines : List Line) :
    ∀ (i : Nat) (st : ConnState) (k : Nat) (n : Nat),
      (loopTrace handler i st lines).get? k = some (.handlerStart n) →
      (loopTrace handler i st lines).get? (k + 1) = some (.handlerEnd n) := by
  induction lines with
  | nil =>
      intro i st k n h
      simp [loopTrace] at h
  | cons l rest ih =>
      intro i st k n h
      cases l with
      | malformed fb =>
          cases k with
          | zero => simp [loopTrace] at h
          | succ k2 =>
              have h2 : (loopTrace handler (i + 1) st rest).get? k2 =
                  some (.handlerStart n) := by
                simpa [loopTrace] using h
              simpa [loopTrace] using ih (i + 1) st k2 n h2
      | parsed j =>
          cases hj : j.getNonNull "method" with
          | none =>
              cases hp : processMessage handler st j with
              | error e =>
                  rw [show loopTrace handler i st (.parsed j :: rest) =
                      [.frameDecoded i] by simp [loopTrace, hj, hp]] at h
                  cases k with
                  | zero => simp at h
                  | succ k2 => simp at h
              | ok pr =>
                  rw [show loopTrace handler i st (.parsed j :: rest) =
                      .frameDecoded i :: loopTrace handler (i + 1) pr.1 rest by
                    simp [loopTrace, hj, hp]] at h ⊢
                  cases k with
                  | zero => simp at h
                  | succ k2 =>
                      simp only [List.get?] at h ⊢
                      exact ih (i + 1) pr.1 k2 n h
          | some mm =>
              cases hp : processMessage handler st j with
              | error e =>
                  rw [show loopTrace handler i st (.parsed j :: rest) =
                      [.frameDecoded i, .handlerStart i, .handlerEnd i] by
                    simp [loopTrace, hj, hp]] at h ⊢
                  cases k with
                  | zero => simp at h
                  | succ k2 =>
                      cases k2 with
                      | zero =>
                          have hni : n = i := by simpa using h.symm
                          subst hni
                          rfl
                      | succ k3 =>
                          cases k3 with
                          | zero => simp at h
                          | succ k4 => simp at h
              | ok pr =>
                  rw [show loopTrace handler i st (.parsed j :: rest) =
                      .frameDecoded i :: .handlerStart i :: .handlerEnd i ::
                        loopTrace handler (i + 1) pr.1 rest by
                    simp [loopTrace, hj, hp]] at h ⊢
                  cases k with
                  | zero => simp at h
                  | succ k2 =>
                      cases k2 with
                      | zero =>
                          have hni : n = i := by simpa using h.symm
                          subst hni
                          rfl
                      | succ k3 =>
                          cases k3 with
                          | zero => simp at h
                          | succ k4 =>
                              simp only [List.get?] at h ⊢
                              exact ih (i + 1) pr.1 k4 n h

/-- Witness for C5 (amended): in the trace of two back-to-back requests,
the `handlerStart 0` at position 1 is immediately followed by
`handlerEnd 0` at position 2. -/
theorem receive_loop_serializes_handlers_witness :
    (loopTrace hConst 0 initConn twoReqLines).get? 2 =
      some (.handlerEnd 0) :=
  receive_loop_serializes_handlers hConst twoReqLines 0 initConn 1 0 rfl

end ACP
